import Mathlib

/-!
Verification of the grid-layout and card-content engine of the codenames
card-printing scripts (`src/main.py`).

The Python source is shallowly embedded below: page, margin and card sizes
are natural numbers (the repository only ever passes non-negative machine
integers), Python `//` is `Nat` division, failing `assert` statements and
other raised exceptions become `Except PyError`, and the drawable
components appended to `window.components` become values of an inductive
`Component` type.  The ambient `random.shuffle` call of the board-card
generator is modelled by an explicit shuffle parameter `sh`; theorems that
depend on it only assume that each call permutes its input, which is the
contract of `random.shuffle`.
-/

namespace Codenames

/-- Python-level failures raised by the engine: `assert` failures
(`AssertionError` with the assert's message, `""` for a bare assert),
attribute lookups that do not exist on an object (`AttributeError`, e.g. a
mistyped method name), and integer division by zero. -/
inductive PyError where
  | assertionError : String → PyError
  | attributeError : String → PyError
  | zeroDivisionError : PyError
  deriving DecidableEq, Repr

/-- Colors as the scripts use them via `oldisplay.collections.Color`:
either a named color (`"tomato"`, `"light_grey"`, ...) or the blend
`Color.mix(c1, c2)` of two colors, kept symbolic. -/
inductive Color where
  | named : String → Color
  | mix : Color → Color → Color
  deriving DecidableEq, Repr

/-- Anchor of a drawable component (`align=` keyword of `oldisplay`
components; `topLeft` is the library default when no `align` is passed). -/
inductive Align where
  | topLeft
  | botLeft
  | topRight
  | center
  deriving DecidableEq, Repr

/-- Drawable primitives appended to `window.components`, one constructor
per `oldisplay` component class used by `src/main.py`.  `gridLines`
carries the cell steps, the x/y bounds, the line color and the
`inner_grid` flag; `text` carries content, position, height, anchor,
rotation (degrees), color and resolved font name. -/
inductive Component where
  | gridLines : Nat → Nat → Nat × Nat → Nat × Nat → Color → Bool → Component
  | text : String → Nat × Nat → Nat → Align → Nat → Color → String → Component
  | rectangle : Nat × Nat → Nat × Nat → Color → Align → Component
  | disk : Nat × Nat → Nat → Color → Component
  deriving DecidableEq, Repr

/-- The attributes computed by `CardGrid.__init__`: row count `i_max`,
column count `j_max`, the drawing bounds, the top-left origin `start`,
the cell steps `dx`, `dy` and the capacity `cell_nb = i_max * j_max`. -/
structure CardGrid where
  i_max : Nat
  j_max : Nat
  xbounds : Nat × Nat
  ybounds : Nat × Nat
  start : Nat × Nat
  dx : Nat
  dy : Nat
  cell_nb : Nat
  deriving DecidableEq, Repr

/-- `CardGrid.__init__(window, card_size, xy_margin=(10, 10))`.  The four
`assert` statements of the source are checked in order; afterwards
`i_max = (page_y - 2*y_margin) // card_y` and
`j_max = (page_x - 2*x_margin) // card_x` are computed, which in Python
raises `ZeroDivisionError` when a card dimension is zero (`i_max` is
computed first, so a zero `card_y` is reported first).  No other check is
performed: in particular the source never verifies that `i_max` or
`j_max` is at least 1. -/
def CardGrid.init (pageSize cardSize xyMargin : Nat × Nat) :
    Except PyError CardGrid :=
  let page_x := pageSize.1
  let page_y := pageSize.2
  let x_margin := xyMargin.1
  let y_margin := xyMargin.2
  if page_x ≤ 2 * x_margin then
    .error (.assertionError "x-margin must be twice smaller than page x-size")
  else if page_y ≤ 2 * y_margin then
    .error (.assertionError "y-margin must be twice smaller than page y-size")
  else
    let card_x := cardSize.1
    let card_y := cardSize.2
    if page_x ≤ card_x then
      .error (.assertionError "card x-size must be smaller than page x-size")
    else if page_y ≤ card_y then
      .error (.assertionError "card y-size must be smaller than page y-size")
    else if card_y = 0 then .error .zeroDivisionError
    else if card_x = 0 then .error .zeroDivisionError
    else
      let i_max := (page_y - 2 * y_margin) / card_y
      let j_max := (page_x - 2 * x_margin) / card_x
      .ok ⟨i_max, j_max, (x_margin, page_x - x_margin),
        (y_margin, page_y - y_margin), (x_margin, y_margin),
        card_x, card_y, i_max * j_max⟩

/-- The `for k, item in enumerate(items)` loop of `CardGrid.ij_enum`,
started at counter value `k`: compute `j = k % j_max` and `i = k // j_max`,
`break` as soon as `i >= i_max`, otherwise yield `((i, j), item)`. -/
def CardGrid.ij_from (g : CardGrid) : Nat → List α → List ((Nat × Nat) × α)
  | _, [] => []
  | k, item :: rest =>
    if g.i_max ≤ k / g.j_max then []
    else ((k / g.j_max, k % g.j_max), item) :: g.ij_from (k + 1) rest

/-- `CardGrid.ij_enum(items)`.  When `len(items) > cell_nb` the source
calls `logger.waring(...)` before the loop; `logging` loggers have no
`waring` attribute (a typo for `warning`, which is spelled correctly
elsewhere in the file), so consuming the generator raises
`AttributeError` and nothing is yielded. -/
def CardGrid.ij_enum (g : CardGrid) (items : List α) :
    Except PyError (List ((Nat × Nat) × α)) :=
  if g.cell_nb < items.length then .error (.attributeError "waring")
  else .ok (g.ij_from 0 items)

/-- Body of `CardGrid.xy_enum`: turn a yielded `((i, j), item)` pair into
the top-left pixel pair `((x0 + j*dx, y0 + i*dy), item)`. -/
def CardGrid.xy_of (g : CardGrid) (p : (Nat × Nat) × α) : (Nat × Nat) × α :=
  ((g.start.1 + p.1.2 * g.dx, g.start.2 + p.1.1 * g.dy), p.2)

/-- `CardGrid.xy_enum(items)`: delegate to `ij_enum` and convert cell
positions to top-left pixel positions. -/
def CardGrid.xy_enum (g : CardGrid) (items : List α) :
    Except PyError (List ((Nat × Nat) × α)) :=
  (g.ij_enum items).map (fun l => l.map g.xy_of)

/-- Explicit, truncation-free form of the pair sequence of `ij_from`:
the item at offset `m` from counter `k` is sent to row `(k+m) / j_max`,
column `(k+m) % j_max`. -/
def CardGrid.enumMapFrom (g : CardGrid) : Nat → List α → List ((Nat × Nat) × α)
  | _, [] => []
  | k, item :: rest =>
    ((k / g.j_max, k % g.j_max), item) :: g.enumMapFrom (k + 1) rest

theorem CardGrid.enumMapFrom_length (g : CardGrid) (k : Nat) (l : List α) :
    (g.enumMapFrom k l).length = l.length := by
  induction l generalizing k with
  | nil => rfl
  | cons a rest ih => simp [enumMapFrom, ih]

theorem CardGrid.enumMapFrom_get? (g : CardGrid) (k m : Nat) (l : List α) :
    (g.enumMapFrom k l).get? m =
      (l.get? m).map (fun it => (((k + m) / g.j_max, (k + m) % g.j_max), it)) := by
  induction l generalizing k m with
  | nil => simp [enumMapFrom]
  | cons a rest ih =>
    cases m with
    | zero => simp [enumMapFrom]
    | succ m =>
      simp only [enumMapFrom, List.get?_cons_succ, ih (k + 1) m]
      have : k + 1 + m = k + (m + 1) := by omega
      rw [this]

theorem CardGrid.enumMapFrom_map_snd (g : CardGrid) (k : Nat) (l : List α) :
    (g.enumMapFrom k l).map Prod.snd = l := by
  induction l generalizing k with
  | nil => rfl
  | cons a rest ih => simp [enumMapFrom, ih]

theorem CardGrid.enumMapFrom_append (g : CardGrid) (k : Nat) (l₁ l₂ : List α) :
    g.enumMapFrom k (l₁ ++ l₂) =
      g.enumMapFrom k l₁ ++ g.enumMapFrom (k + l₁.length) l₂ := by
  induction l₁ generalizing k with
  | nil => simp [enumMapFrom]
  | cons a rest ih =>
    simp only [List.cons_append, enumMapFrom, List.length_cons, ih (k + 1)]
    have h : k + 1 + rest.length = k + (rest.length + 1) := by omega
    rw [show rest.append l₂ = rest ++ l₂ from rfl, ih (k + 1), h]

theorem CardGrid.enumMapFrom_map_fst (g : CardGrid) (k : Nat) (l : List α) :
    (g.enumMapFrom k l).map Prod.fst =
      (List.range' k l.length 1).map (fun m => (m / g.j_max, m % g.j_max)) := by
  induction l generalizing k with
  | nil => rfl
  | cons a rest ih => simp [enumMapFrom, List.range'_succ, ih]

theorem CardGrid.snd_mem_of_mem_enumMapFrom (g : CardGrid) (k : Nat)
    (l : List α) (p : (Nat × Nat) × α) (hp : p ∈ g.enumMapFrom k l) :
    p.2 ∈ l := by
  induction l generalizing k with
  | nil => simp [enumMapFrom] at hp
  | cons a rest ih =>
    simp only [enumMapFrom, List.mem_cons] at hp
    rcases hp with h | h
    · subst h; simp
    · exact List.mem_cons_of_mem _ (ih (k + 1) h)

/-- `ij_from` yields the items of `items.take (i_max * j_max - k)` with
their row-major positions: the loop stops exactly when the running
counter reaches `i_max * j_max`. -/
theorem CardGrid.ij_from_eq (g : CardGrid) (hj : 0 < g.j_max)
    (items : List α) (k : Nat) :
    g.ij_from k items = g.enumMapFrom k (items.take (g.i_max * g.j_max - k)) := by
  induction items generalizing k with
  | nil => simp [ij_from, enumMapFrom]
  | cons a rest ih =>
    by_cases h : g.i_max ≤ k / g.j_max
    · have hk : g.i_max * g.j_max ≤ k := by
        have := (Nat.le_div_iff_mul_le hj).1 h
        exact this
      rw [ij_from, if_pos h, Nat.sub_eq_zero_of_le hk]
      rfl
    · push_neg at h
      have hk : k < g.i_max * g.j_max := by
        have := (Nat.div_lt_iff_lt_mul hj).1 h
        omega
      have hsub : g.i_max * g.j_max - k = (g.i_max * g.j_max - (k + 1)) + 1 := by
        omega
      rw [ij_from, if_neg (not_le.2 h), hsub, List.take_succ_cons, enumMapFrom,
        ih (k + 1)]

/-- When at most `cell_nb` items are passed to a grid built by
`CardGrid.init`, the whole enumeration is yielded without truncation. -/
theorem CardGrid.ij_from_eq_of_le (g : CardGrid) (hj : 0 < g.j_max)
    (hc : g.cell_nb = g.i_max * g.j_max) (items : List α)
    (hlen : items.length ≤ g.cell_nb) :
    g.ij_from 0 items = g.enumMapFrom 0 items := by
  rw [g.ij_from_eq hj items 0, Nat.sub_zero, ← hc,
    List.take_of_length_le hlen]

/-- Shape of every grid successfully returned by `CardGrid.init`: the
stored attributes are exactly the expressions computed by the
constructor, and in particular `cell_nb = i_max * j_max` while the card
dimensions are positive. -/
theorem CardGrid.init_ok_spec (pageSize cardSize xyMargin : Nat × Nat)
    (g : CardGrid) (h : CardGrid.init pageSize cardSize xyMargin = .ok g) :
    g.i_max = (pageSize.2 - 2 * xyMargin.2) / cardSize.2 ∧
    g.j_max = (pageSize.1 - 2 * xyMargin.1) / cardSize.1 ∧
    g.start = xyMargin ∧ g.dx = cardSize.1 ∧ g.dy = cardSize.2 ∧
    g.cell_nb = g.i_max * g.j_max ∧ 0 < g.dx ∧ 0 < g.dy := by
  simp only [CardGrid.init] at h
  split at h
  · exact absurd h (by simp)
  split at h
  · exact absurd h (by simp)
  split at h
  · exact absurd h (by simp)
  split at h
  · exact absurd h (by simp)
  split at h
  · exact absurd h (by simp)
  split at h
  · exact absurd h (by simp)
  rename_i h1 h2 h3 h4 h5 h6
  cases h
  refine ⟨rfl, rfl, rfl, rfl, rfl, rfl, ?_, ?_⟩
  · show 0 < cardSize.1
    omega
  · show 0 < cardSize.2
    omega

/-- A constructed grid with positive capacity has positive row and column
counts. -/
theorem CardGrid.pos_of_cell_nb_pos (g : CardGrid)
    (hc : g.cell_nb = g.i_max * g.j_max) (hpos : 0 < g.cell_nb) :
    0 < g.i_max ∧ 0 < g.j_max := by
  rw [hc] at hpos
  exact ⟨Nat.pos_of_mul_pos_left (by rwa [Nat.mul_comm] at hpos),
    Nat.pos_of_mul_pos_left hpos⟩

/-- C2 counterexample: with page `(50, 50)`, margins `(10, 10)` and card
size `(40, 40)` the card does not fit inside the page minus twice the
margins (`40 > 30`) and both the row and the column count come out as
`0 < 1`, yet `CardGrid.__init__` succeeds and returns a capacity-0 grid:
the source only compares the card to the full page size and never checks
`rows ≥ 1` or `cols ≥ 1`. -/
theorem cardgrid_init_no_fit_check :
    CardGrid.init (50, 50) (40, 40) (10, 10) =
      .ok ⟨0, 0, (10, 40), (10, 40), (10, 10), 40, 40, 0⟩ := by rfl

/-- C2, amended: grid construction fails exactly when a margin is at
least half of the page on its axis, when a card dimension is not strictly
smaller than the corresponding full page dimension, or when a card
dimension is zero (Python division by zero); the cell is never compared
against `page - 2*margin` and `rows ≥ 1 ∧ cols ≥ 1` is never enforced, so
a successfully constructed grid can have zero rows or columns. -/
theorem cardgrid_init_isOk_iff (px py cx cy mx my : Nat) :
    (CardGrid.init (px, py) (cx, cy) (mx, my)).isOk = true ↔
      (2 * mx < px ∧ 2 * my < py ∧ cx < px ∧ cy < py ∧ cx ≠ 0 ∧ cy ≠ 0) := by
  simp only [CardGrid.init]
  repeat' split
  all_goals simp_all [Except.isOk, Except.toBool]

/-- C3 (code bug): enumerating more items than the grid capacity raises
`AttributeError` instead of placing the first `capacity` items — the
source spells `logger.waring` for `logger.warning`.  Here the 2×2 grid
built from page `(100, 100)`, card `(30, 30)`, margins `(10, 10)` has
capacity 4 and is given 5 items: the enumeration errors out and yields no
placement at all. -/
theorem ij_enum_overflow_attribute_error :
    (CardGrid.init (100, 100) (30, 30) (10, 10)).map
      (fun g => g.ij_enum ["a", "b", "c", "d", "e"]) =
      .ok (.error (.attributeError "waring")) := by rfl

/-- C6: for every placed item, its grid position is row-major and
zero-based — the `k`-th placed item of a successful enumeration sits at
row `k / cols`, column `k % cols` — and its cell's top-left pixel
coordinate is `origin + (col * cell_dx, row * cell_dy)` where `origin` is
`(margin.x, margin.y)`. -/
theorem placement_row_major (pageSize cardSize xyMargin : Nat × Nat)
    (g : CardGrid) (items : List α) (ij xy : List ((Nat × Nat) × α))
    (hg : CardGrid.init pageSize cardSize xyMargin = .ok g)
    (hij : g.ij_enum items = .ok ij) (hxy : g.xy_enum items = .ok xy)
    (k : Nat) :
    ij.get? k = (items.get? k).map
      (fun it => ((k / g.j_max, k % g.j_max), it)) ∧
    xy.get? k = (items.get? k).map
      (fun it => ((xyMargin.1 + (k % g.j_max) * g.dx,
                   xyMargin.2 + (k / g.j_max) * g.dy), it)) := by
  obtain ⟨-, -, hstart, -, -, hc, -, -⟩ :=
    CardGrid.init_ok_spec pageSize cardSize xyMargin g hg
  simp only [CardGrid.ij_enum] at hij
  split at hij
  · exact absurd hij (by simp)
  rename_i hlen
  push_neg at hlen
  simp only [CardGrid.xy_enum, CardGrid.ij_enum, if_neg (by omega : ¬ g.cell_nb < items.length)] at hxy
  have hxyij : xy = ij.map g.xy_of := by
    cases hij; cases hxy; rfl
  rcases Nat.eq_zero_or_pos g.cell_nb with hzero | hpos
  · have : items = [] := by
      cases items with
      | nil => rfl
      | cons a t => simp [hzero] at hlen
    subst this
    cases hij
    simp [CardGrid.ij_from, hxyij, CardGrid.enumMapFrom]
  · obtain ⟨-, hj⟩ := g.pos_of_cell_nb_pos hc hpos
    have hform : ij = g.enumMapFrom 0 items := by
      cases hij
      exact g.ij_from_eq_of_le hj hc items hlen
    subst hform
    subst hxyij
    refine ⟨?_, ?_⟩
    · rw [g.enumMapFrom_get? 0 k items]
      simp
    · rw [List.get?_map, g.enumMapFrom_get? 0 k items]
      cases items.get? k <;> simp [CardGrid.xy_of, hstart]

/-- Concrete instantiation of `placement_row_major`: page `(100, 100)`,
card `(30, 30)`, margins `(10, 10)`, items `["a", "b", "c"]`, third item:
it is placed at row 1, column 0, with top-left pixel `(10, 40)`. -/
theorem placement_row_major_witness :
    ([((0, 0), "a"), ((0, 1), "b"), ((1, 0), "c")] :
        List ((Nat × Nat) × String)).get? 2 =
      (["a", "b", "c"].get? 2).map
        (fun it => ((2 / 2, 2 % 2), it)) ∧
    ([((10, 10), "a"), ((40, 10), "b"), ((10, 40), "c")] :
        List ((Nat × Nat) × String)).get? 2 =
      (["a", "b", "c"].get? 2).map
        (fun it => ((10 + (2 % 2) * 30, 10 + (2 / 2) * 30), it)) :=
  placement_row_major (100, 100) (30, 30) (10, 10)
    ⟨2, 2, (10, 90), (10, 90), (10, 10), 30, 30, 4⟩
    ["a", "b", "c"] _ _ rfl rfl rfl 2

/-- Reduction of a successful step of an `Except` computation. -/
theorem except_bind_ok (x : α) (f : α → Except ε β) :
    (Except.ok x : Except ε α) >>= f = f x := rfl

/-- Python `str.upper()` on the word strings: upper-case every character
(the word lists are plain ASCII words). -/
def pyUpper (s : String) : String := ⟨s.data.map Char.toUpper⟩

/-- `display_word_cards(window, words, card_size)` with the `WORD_PARAMS`
defaults (`txt_height_r=6`, `txt_xmargin_r=10`, `txt_ymargin_r=20`, top
text magenta consolas, bottom text dodger blue over a lavender rectangle,
bottom font falling back to the top font).  The function resets
`window.components`, appends the grid lines, truncates the word list to
the grid capacity with a (correctly spelled) warning, and appends three
components per placed word; the resulting component list is returned. -/
def display_word_cards (pageSize cardSize : Nat × Nat) (words : List String) :
    Except PyError (List Component) := do
  let grid ← CardGrid.init pageSize cardSize (10, 10)
  let txt_height := grid.dy / 6
  let txt_xmargin := grid.dx / 10
  let txt_ymargin := grid.dy / 20
  let words := if grid.cell_nb < words.length then words.take grid.cell_nb else words
  let placed ← grid.xy_enum words
  let cells := placed.map (fun p =>
    let x := p.1.1
    let y := p.1.2
    let word := p.2
    let ym := y + grid.dy / 2
    [Component.text (pyUpper word) (x + txt_xmargin, ym - txt_ymargin)
        txt_height .botLeft 0 (.named "magenta") "consolas",
     Component.rectangle (x + txt_xmargin, ym + txt_ymargin / 2)
        (grid.dx - 3 * txt_xmargin / 2, txt_height + txt_ymargin)
        (.named "lavender") .topLeft,
     Component.text (pyUpper word) (x + grid.dx - txt_xmargin, ym + txt_ymargin)
        txt_height .topRight 180 (.named "dodger_blue") "consolas"])
  .ok (Component.gridLines grid.dx grid.dy grid.xbounds grid.ybounds
      (.named "light_grey") false :: cells.flatten)

/-- C9: for every placed word the generator emits an upper label — the
word upper-cased, anchored bottom-left at the configured margins inside
the cell — and a lower label carrying the identical upper-cased text,
rotated 180° and anchored top-right; the displayed text is upper-cased
whatever the casing of the input word. -/
theorem word_card_labels (pageSize cardSize : Nat × Nat) (g : CardGrid)
    (words : List String) (comps : List Component) (k : Nat) (w : String)
    (hg : CardGrid.init pageSize cardSize (10, 10) = .ok g)
    (hdisp : display_word_cards pageSize cardSize words = .ok comps)
    (hw : words.get? k = some w) (hk : k < g.cell_nb) :
    (Component.text (pyUpper w)
        (g.start.1 + (k % g.j_max) * g.dx + g.dx / 10,
         g.start.2 + (k / g.j_max) * g.dy + g.dy / 2 - g.dy / 20)
        (g.dy / 6) .botLeft 0 (.named "magenta") "consolas") ∈ comps ∧
    (Component.text (pyUpper w)
        (g.start.1 + (k % g.j_max) * g.dx + g.dx - g.dx / 10,
         g.start.2 + (k / g.j_max) * g.dy + g.dy / 2 + g.dy / 20)
        (g.dy / 6) .topRight 180 (.named "dodger_blue") "consolas") ∈ comps := by
  obtain ⟨-, -, -, -, -, hc, -, -⟩ := CardGrid.init_ok_spec _ _ _ g hg
  obtain ⟨-, hj⟩ := g.pos_of_cell_nb_pos hc (lt_of_le_of_lt (Nat.zero_le k) hk)
  simp only [display_word_cards, hg, except_bind_ok] at hdisp
  set w' : List String :=
    if g.cell_nb < words.length then words.take g.cell_nb else words with hw'
  have hlen' : w'.length ≤ g.cell_nb := by
    rw [hw']
    split
    · simp
    · omega
  have hwk : w'.get? k = some w := by
    rw [hw']
    split
    · rw [List.get?_take hk]
      exact hw
    · exact hw
  have hxy : g.xy_enum w' = .ok ((g.enumMapFrom 0 w').map g.xy_of) := by
    simp only [CardGrid.xy_enum, CardGrid.ij_enum, if_neg (not_lt.2 hlen')]
    rw [g.ij_from_eq_of_le hj hc w' hlen']
    rfl
  rw [hxy] at hdisp
  simp only [except_bind_ok] at hdisp
  have hmem : ((g.start.1 + (k % g.j_max) * g.dx,
      g.start.2 + (k / g.j_max) * g.dy), w) ∈
      (g.enumMapFrom 0 w').map g.xy_of := by
    apply List.get?_mem (n := k)
    rw [List.get?_map, g.enumMapFrom_get? 0 k w', hwk]
    simp [CardGrid.xy_of]
  cases hdisp
  constructor
  · refine List.mem_cons_of_mem _ (List.mem_flatten.2 ⟨_, List.mem_map_of_mem _ hmem, ?_⟩)
    simp
  · refine List.mem_cons_of_mem _ (List.mem_flatten.2 ⟨_, List.mem_map_of_mem _ hmem, ?_⟩)
    simp

/-- Concrete instantiation of `word_card_labels`: the word `"Chat"` on
the 2×2 grid of page `(100, 100)`, card `(30, 30)`: the two labels carry
the text `"CHAT"`, the upper one bottom-left at `(13, 24)` and the lower
one top-right, rotated 180°, at `(37, 26)`. -/
theorem word_card_labels_witness :
    (Component.text "CHAT" (13, 24) 5 .botLeft 0 (.named "magenta")
        "consolas") ∈
      [Component.gridLines 30 30 (10, 90) (10, 90) (.named "light_grey") false,
       Component.text "CHAT" (13, 24) 5 .botLeft 0 (.named "magenta") "consolas",
       Component.rectangle (13, 25) (26, 6) (.named "lavender") .topLeft,
       Component.text "CHAT" (37, 26) 5 .topRight 180 (.named "dodger_blue")
         "consolas"] ∧
    (Component.text "CHAT" (37, 26) 5 .topRight 180 (.named "dodger_blue")
        "consolas") ∈
      [Component.gridLines 30 30 (10, 90) (10, 90) (.named "light_grey") false,
       Component.text "CHAT" (13, 24) 5 .botLeft 0 (.named "magenta") "consolas",
       Component.rectangle (13, 25) (26, 6) (.named "lavender") .topLeft,
       Component.text "CHAT" (37, 26) 5 .topRight 180 (.named "dodger_blue")
         "consolas"] := by
  have h := word_card_labels (100, 100) (30, 30)
    ⟨2, 2, (10, 90), (10, 90), (10, 10), 30, 30, 4⟩ ["Chat"] _ 0 "Chat"
    rfl rfl rfl (by decide)
  exact h

/-- Color carried by a drawable component. -/
def Component.colorOf : Component → Color
  | .gridLines _ _ _ _ c _ => c
  | .text _ _ _ _ _ c _ => c
  | .rectangle _ _ c _ => c
  | .disk _ _ c => c

/-- `display_validation_cards(window, card_size)` with the `GAME_PARAMS`
defaults for layout, parameterized by `guess_nb` and the two team colors:
builds the grid, lays the fixed color sequence (team 1 repeated
`guess_nb` times, team 2 repeated `guess_nb` times, then the blended
`Color.mix` of both), asserts that it fits the capacity, and emits one
centered rectangle swatch per color at the middle of consecutive cells. -/
def display_validation_cards (pageSize cardSize : Nat × Nat) (guess_nb : Nat)
    (t1_color t2_color : Color) : Except PyError (List Component) := do
  let grid ← CardGrid.init pageSize cardSize (10, 10)
  let colors := List.replicate guess_nb t1_color
      ++ List.replicate guess_nb t2_color ++ [Color.mix t1_color t2_color]
  if grid.i_max * grid.j_max < colors.length then
    .error (.assertionError "Not enough space to display all validation cards")
  else do
    let sx := grid.dx / 3
    let sy := grid.dy / 3
    let placed ← grid.xy_enum colors
    .ok (Component.gridLines grid.dx grid.dy grid.xbounds grid.ybounds
        (.named "light_grey") false ::
      placed.map (fun p =>
        Component.rectangle (p.1.1 + grid.dx / 2, p.1.2 + grid.dy / 2)
          (sx, sy) p.2 .center))

/-- C5: the Validation Card generator fails (capacity assertion) exactly
when `2*guess_nb + 1` exceeds the grid capacity; on success it emits one
swatch per occupied cell whose colors follow the fixed order — the team-1
color `guess_nb` times, the team-2 color `guess_nb` times, then the
single blended both-teams color as the last swatch. -/
theorem validation_cards_spec (pageSize cardSize : Nat × Nat) (g : CardGrid)
    (guess_nb : Nat) (t1 t2 : Color)
    (hg : CardGrid.init pageSize cardSize (10, 10) = .ok g) :
    ((display_validation_cards pageSize cardSize guess_nb t1 t2).isOk = true ↔
      2 * guess_nb + 1 ≤ g.cell_nb) ∧
    (∀ comps,
      display_validation_cards pageSize cardSize guess_nb t1 t2 = .ok comps →
      comps.tail.map Component.colorOf =
        List.replicate guess_nb t1 ++ List.replicate guess_nb t2
          ++ [Color.mix t1 t2] ∧
      comps.tail.length = 2 * guess_nb + 1) := by
  obtain ⟨-, -, -, -, -, hc, -, -⟩ := CardGrid.init_ok_spec _ _ _ g hg
  have hlen : (List.replicate guess_nb t1 ++ List.replicate guess_nb t2
      ++ [Color.mix t1 t2]).length = 2 * guess_nb + 1 := by
    simp
    omega
  simp only [display_validation_cards, hg, except_bind_ok]
  by_cases hcond : g.i_max * g.j_max < (List.replicate guess_nb t1
      ++ List.replicate guess_nb t2 ++ [Color.mix t1 t2]).length
  · rw [if_pos hcond]
    rw [hlen, ← hc] at hcond
    refine ⟨?_, ?_⟩
    · simp only [Except.isOk, Except.toBool]
      constructor
      · intro h
        exact absurd h (by simp)
      · intro h
        omega
    · intro comps hcomps
      exact absurd hcomps (by simp)
  · rw [if_neg hcond]
    rw [hlen, ← hc] at hcond
    push_neg at hcond
    obtain ⟨-, hj⟩ := g.pos_of_cell_nb_pos hc (by omega)
    have hle : (List.replicate guess_nb t1 ++ List.replicate guess_nb t2
        ++ [Color.mix t1 t2]).length ≤ g.cell_nb := by rw [hlen]; omega
    have hxy : g.xy_enum (List.replicate guess_nb t1
        ++ List.replicate guess_nb t2 ++ [Color.mix t1 t2]) =
        .ok ((g.enumMapFrom 0 (List.replicate guess_nb t1
          ++ List.replicate guess_nb t2 ++ [Color.mix t1 t2])).map g.xy_of) := by
      simp only [CardGrid.xy_enum, CardGrid.ij_enum, if_neg (not_lt.2 hle)]
      rw [g.ij_from_eq_of_le hj hc _ hle]
      rfl
    rw [hxy]
    simp only [except_bind_ok]
    refine ⟨⟨fun _ => by omega, fun _ => rfl⟩, ?_⟩
    intro comps hcomps
    cases hcomps
    simp only [List.tail_cons, List.map_map, List.length_map]
    constructor
    · have hco : (Component.colorOf ∘
          (fun p : (Nat × Nat) × Color =>
            Component.rectangle (p.1.1 + g.dx / 2, p.1.2 + g.dy / 2)
              (g.dx / 3, g.dy / 3) p.2 .center) ∘ g.xy_of) =
          (Prod.snd : (Nat × Nat) × Color → Color) := by
        funext p
        rfl
      rw [hco, g.enumMapFrom_map_snd]
    · rw [g.enumMapFrom_length, hlen]

/-- Concrete instantiation of `validation_cards_spec` matching the spec's
example shape: on a capacity-4 grid with `guess_nb = 1` the generator
succeeds (`2*1+1 = 3 ≤ 4`) and the three swatches are team 1, team 2,
then the blended color last. -/
theorem validation_cards_spec_witness :
    ((display_validation_cards (100, 100) (30, 30) 1 (.named "tomato")
        (.named "corn_flower_blue")).isOk = true ↔ 2 * 1 + 1 ≤ 4) ∧
    (∀ comps,
      display_validation_cards (100, 100) (30, 30) 1 (.named "tomato")
          (.named "corn_flower_blue") = .ok comps →
      comps.tail.map Component.colorOf =
        List.replicate 1 (Color.named "tomato")
          ++ List.replicate 1 (Color.named "corn_flower_blue")
          ++ [Color.mix (.named "tomato") (.named "corn_flower_blue")] ∧
      comps.tail.length = 2 * 1 + 1) :=
  validation_cards_spec (100, 100) (30, 30)
    ⟨2, 2, (10, 90), (10, 90), (10, 10), 30, 30, 4⟩ 1 (.named "tomato")
    (.named "corn_flower_blue") rfl

/-- Data of one board card produced by the main loop of
`display_board_cards`: the top-level cell's top-left pixel `origin`, the
alternating owning-team `line_color` used for the inner grid lines, the
sub-grid `positions` and the shuffled token colors zipped onto them. -/
structure BoardCell where
  origin : Nat × Nat
  line_color : Color
  positions : List (Nat × Nat)
  tokens : List Color
  deriving DecidableEq, Repr

/-- Sub-grid positions of one board card:
`[(x + i*cell_dx, y + j*cell_dy) for i in range(cell_di) for j in range(cell_dj)]`
with `cell_dx = grid.dx // board_size[0]`, `cell_dy = grid.dy // board_size[1]`
and `(cell_di, cell_dj) = board_size`. -/
def sub_positions (g : CardGrid) (bsx bsy : Nat) (xy : Nat × Nat) :
    List (Nat × Nat) :=
  (List.range bsx).flatMap
    (fun i => (List.range bsy).map
      (fun j => (xy.1 + i * (g.dx / bsx), xy.2 + j * (g.dy / bsy))))

/-- The `card_colors` list built for one board card before the neutral
fill: `guess_nb` team-1 tokens, `guess_nb` team-2 tokens, then the cell's
owning color and the death color. -/
def card_colors_of (guess_nb : Nat) (t1 t2 death : Color) (color : Color) :
    List Color :=
  List.replicate guess_nb t1 ++ List.replicate guess_nb t2 ++ [color, death]

/-- Per-cell loop of `display_board_cards` over the placed top-level
cells: for each `(xy, color)` build the sub-grid positions and the
`card_colors` list, `assert len(card_colors) < len(positions)` (a bare
assert, so the message is empty), pad with neutral tokens up to the
sub-grid capacity, and shuffle (`rd.shuffle`, modelled by `sh` applied to
the running cell index). -/
def build_cells (g : CardGrid) (bsx bsy guess_nb : Nat)
    (t1 t2 neutral death : Color) (sh : Nat → List Color → List Color) :
    List ((Nat × Nat) × Color) → Nat → Except PyError (List BoardCell)
  | [], _ => .ok []
  | p :: rest, n =>
    let positions := sub_positions g bsx bsy p.1
    let card_colors := card_colors_of guess_nb t1 t2 death p.2
    if card_colors.length < positions.length then do
      let cells ← build_cells g bsx bsy guess_nb t1 t2 neutral death sh rest (n + 1)
      .ok (⟨p.1, p.2, positions,
        sh n (card_colors ++
          List.replicate (positions.length - card_colors.length) neutral)⟩ :: cells)
    else .error (.assertionError "")

/-- Explicit form of the cells of `build_cells` when every capacity
assertion holds. -/
def cells_of (g : CardGrid) (bsx bsy guess_nb : Nat)
    (t1 t2 neutral death : Color) (sh : Nat → List Color → List Color) :
    List ((Nat × Nat) × Color) → Nat → List BoardCell
  | [], _ => []
  | p :: rest, n =>
    let positions := sub_positions g bsx bsy p.1
    let card_colors := card_colors_of guess_nb t1 t2 death p.2
    ⟨p.1, p.2, positions,
      sh n (card_colors ++
        List.replicate (positions.length - card_colors.length) neutral)⟩ ::
      cells_of g bsx bsy guess_nb t1 t2 neutral death sh rest (n + 1)

/-- The board-card content of `display_board_cards(window, card_size)`,
parameterized by `board_size`, `guess_nb`, the four `GAME_PARAMS` colors
and the shuffle: build the top-level grid with the default margins, lay
the alternating owner colors `[t1_color, t2_color] * (cell_nb // 2)` on
its cells, and run the per-cell loop. -/
def display_board_cells (pageSize cardSize board_size : Nat × Nat)
    (guess_nb : Nat) (t1 t2 neutral death : Color)
    (sh : Nat → List Color → List Color) : Except PyError (List BoardCell) := do
  let grid ← CardGrid.init pageSize cardSize (10, 10)
  let colors := (List.replicate (grid.cell_nb / 2) [t1, t2]).flatten
  let placed ← grid.xy_enum colors
  build_cells grid board_size.1 board_size.2 guess_nb t1 t2 neutral death sh
    placed 0

/-- Drawable components of `display_board_cards`: the top-level grid
lines, then per board card its inner grid lines in the owning color and
one disk per `(position, token)` pair (the radius keeps the source's
`min(cell_dx, cell_dx) // disk_r`). -/
def display_board_cards (pageSize cardSize board_size : Nat × Nat)
    (guess_nb disk_r : Nat) (t1 t2 neutral death : Color)
    (sh : Nat → List Color → List Color) : Except PyError (List Component) := do
  let grid ← CardGrid.init pageSize cardSize (10, 10)
  let cells ← display_board_cells pageSize cardSize board_size guess_nb
    t1 t2 neutral death sh
  let cell_dx := grid.dx / board_size.1
  let cell_dy := grid.dy / board_size.2
  .ok (Component.gridLines grid.dx grid.dy grid.xbounds grid.ybounds
      (.named "light_grey") false ::
    (cells.map (fun c =>
      Component.gridLines cell_dx cell_dy (c.origin.1, c.origin.1 + grid.dx)
          (c.origin.2, c.origin.2 + grid.dy) c.line_color true ::
        (c.positions.zip c.tokens).map (fun q =>
          Component.disk (q.1.1 + cell_dx / 2, q.1.2 + cell_dy / 2)
            (min cell_dx cell_dx / disk_r) q.2))).flatten)

theorem length_range_flatMap_map (a b : Nat) (f : Nat → Nat → Nat × Nat) :
    ((List.range a).flatMap (fun i => (List.range b).map (f i))).length =
      a * b := by
  induction a with
  | zero => simp
  | succ m ih =>
    rw [List.range_succ, List.flatMap_append, List.length_append, ih]
    simp [Nat.succ_mul]

theorem sub_positions_length (g : CardGrid) (bsx bsy : Nat) (xy : Nat × Nat) :
    (sub_positions g bsx bsy xy).length = bsx * bsy := by
  rw [sub_positions]
  exact length_range_flatMap_map bsx bsy _

theorem card_colors_of_length (guess_nb : Nat) (t1 t2 death color : Color) :
    (card_colors_of guess_nb t1 t2 death color).length = 2 * guess_nb + 2 := by
  simp [card_colors_of]
  omega

theorem join_replicate_pair_length (n : Nat) (a b : Color) :
    ((List.replicate n [a, b]).flatten).length = 2 * n := by
  induction n with
  | zero => rfl
  | succ m ih =>
    rw [List.replicate_succ, List.flatten_cons, List.length_append, ih]
    simp
    omega

theorem mem_join_replicate_pair (n : Nat) (a b x : Color)
    (hx : x ∈ (List.replicate n [a, b]).flatten) : x = a ∨ x = b := by
  rw [List.mem_flatten] at hx
  obtain ⟨l, hl, hxl⟩ := hx
  rw [List.eq_of_mem_replicate hl] at hxl
  simpa using hxl

theorem cells_of_length (g : CardGrid) (bsx bsy guess_nb : Nat)
    (t1 t2 neutral death : Color) (sh : Nat → List Color → List Color)
    (placed : List ((Nat × Nat) × Color)) (n : Nat) :
    (cells_of g bsx bsy guess_nb t1 t2 neutral death sh placed n).length =
      placed.length := by
  induction placed generalizing n with
  | nil => rfl
  | cons p rest ih => simp [cells_of, ih]

theorem cells_of_map_origin (g : CardGrid) (bsx bsy guess_nb : Nat)
    (t1 t2 neutral death : Color) (sh : Nat → List Color → List Color)
    (placed : List ((Nat × Nat) × Color)) (n : Nat) :
    (cells_of g bsx bsy guess_nb t1 t2 neutral death sh placed n).map
        BoardCell.origin = placed.map Prod.fst := by
  induction placed generalizing n with
  | nil => rfl
  | cons p rest ih => simp [cells_of, ih]

/-- When the capacity assertion holds the per-cell loop succeeds and
returns the explicit cell list. -/
theorem build_cells_ok (g : CardGrid) (bsx bsy guess_nb : Nat)
    (t1 t2 neutral death : Color) (sh : Nat → List Color → List Color)
    (placed : List ((Nat × Nat) × Color)) (n : Nat)
    (hlt : 2 * guess_nb + 2 < bsx * bsy) :
    build_cells g bsx bsy guess_nb t1 t2 neutral death sh placed n =
      .ok (cells_of g bsx bsy guess_nb t1 t2 neutral death sh placed n) := by
  induction placed generalizing n with
  | nil => rfl
  | cons p rest ih =>
    rw [build_cells,
      if_pos (by rw [sub_positions_length, card_colors_of_length]; omega),
      ih (n + 1)]
    rfl

/-- When the capacity assertion fails the first processed cell raises it. -/
theorem build_cells_error (g : CardGrid) (bsx bsy guess_nb : Nat)
    (t1 t2 neutral death : Color) (sh : Nat → List Color → List Color)
    (p : (Nat × Nat) × Color) (rest : List ((Nat × Nat) × Color)) (n : Nat)
    (hnlt : ¬ 2 * guess_nb + 2 < bsx * bsy) :
    build_cells g bsx bsy guess_nb t1 t2 neutral death sh (p :: rest) n =
      .error (.assertionError "") := by
  rw [build_cells,
    if_neg (by rw [sub_positions_length, card_colors_of_length]; omega)]

/-- A successful per-cell loop only returns explicitly built cells. -/
theorem build_cells_ok_eq (g : CardGrid) (bsx bsy guess_nb : Nat)
    (t1 t2 neutral death : Color) (sh : Nat → List Color → List Color)
    (placed : List ((Nat × Nat) × Color)) (n : Nat) (cells : List BoardCell)
    (hok : build_cells g bsx bsy guess_nb t1 t2 neutral death sh placed n =
      .ok cells) :
    cells = cells_of g bsx bsy guess_nb t1 t2 neutral death sh placed n := by
  induction placed generalizing n cells with
  | nil =>
    rw [build_cells] at hok
    cases hok
    rfl
  | cons p rest ih =>
    rw [build_cells] at hok
    split at hok
    · cases hrec : build_cells g bsx bsy guess_nb t1 t2 neutral death sh
          rest (n + 1) with
      | error e =>
        rw [hrec] at hok
        exact absurd hok (by simp [Bind.bind, Except.bind])
      | ok cs =>
        rw [hrec, except_bind_ok] at hok
        cases hok
        rw [cells_of, ← ih (n + 1) cs hrec]
    · exact absurd hok (by simp)

/-- A successful per-cell loop implies the capacity condition as soon as
one cell was processed. -/
theorem build_cells_ok_lt (g : CardGrid) (bsx bsy guess_nb : Nat)
    (t1 t2 neutral death : Color) (sh : Nat → List Color → List Color)
    (p : (Nat × Nat) × Color) (rest : List ((Nat × Nat) × Color)) (n : Nat)
    (cells : List BoardCell)
    (hok : build_cells g bsx bsy guess_nb t1 t2 neutral death sh (p :: rest) n =
      .ok cells) :
    2 * guess_nb + 2 < bsx * bsy := by
  by_contra hnlt
  rw [build_cells_error g bsx bsy guess_nb t1 t2 neutral death sh p rest n hnlt]
    at hok
  exact absurd hok (by simp)

/-- Reduction of the board-card pipeline on a successfully built grid:
the alternating owner colors always fit the capacity (their list has
length `2 * (cell_nb / 2) ≤ cell_nb`), so the run is the per-cell loop on
their row-major placement. -/
theorem display_board_cells_eq (pageSize cardSize bs : Nat × Nat)
    (guess_nb : Nat) (t1 t2 neutral death : Color)
    (sh : Nat → List Color → List Color) (g : CardGrid)
    (hg : CardGrid.init pageSize cardSize (10, 10) = .ok g) :
    display_board_cells pageSize cardSize bs guess_nb t1 t2 neutral death sh =
      build_cells g bs.1 bs.2 guess_nb t1 t2 neutral death sh
        ((g.enumMapFrom 0
          ((List.replicate (g.cell_nb / 2) [t1, t2]).flatten)).map g.xy_of)
        0 := by
  obtain ⟨-, -, -, -, -, hc, -, -⟩ := CardGrid.init_ok_spec _ _ _ g hg
  have hlen : ((List.replicate (g.cell_nb / 2) [t1, t2]).flatten).length ≤
      g.cell_nb := by
    rw [join_replicate_pair_length]
    omega
  have hxy : g.xy_enum ((List.replicate (g.cell_nb / 2) [t1, t2]).flatten) =
      .ok ((g.enumMapFrom 0
        ((List.replicate (g.cell_nb / 2) [t1, t2]).flatten)).map g.xy_of) := by
    simp only [CardGrid.xy_enum, CardGrid.ij_enum, if_neg (not_lt.2 hlen)]
    rcases Nat.eq_zero_or_pos g.cell_nb with hzero | hpos
    · have hnil : (List.replicate (g.cell_nb / 2) [t1, t2]).flatten =
          ([] : List Color) := by
        rw [hzero]
        rfl
      rw [hnil]
      rfl
    · obtain ⟨-, hj⟩ := g.pos_of_cell_nb_pos hc hpos
      rw [g.ij_from_eq_of_le hj hc _ hlen]
      rfl
  simp only [display_board_cells, hg, except_bind_ok, hxy]

/-- Any cell of a successful per-cell loop is built from one of the
placed entries, with the capacity assertion having held. -/
theorem build_cells_ok_mem (g : CardGrid) (bsx bsy guess_nb : Nat)
    (t1 t2 neutral death : Color) (sh : Nat → List Color → List Color)
    (placed : List ((Nat × Nat) × Color)) (n : Nat) (cells : List BoardCell)
    (hok : build_cells g bsx bsy guess_nb t1 t2 neutral death sh placed n =
      .ok cells) :
    ∀ c ∈ cells, ∃ p, p ∈ placed ∧ ∃ m,
      2 * guess_nb + 2 < bsx * bsy ∧
      c = ⟨p.1, p.2, sub_positions g bsx bsy p.1,
        sh m (card_colors_of guess_nb t1 t2 death p.2 ++
          List.replicate ((sub_positions g bsx bsy p.1).length -
            (card_colors_of guess_nb t1 t2 death p.2).length) neutral)⟩ := by
  induction placed generalizing n cells with
  | nil =>
    rw [build_cells] at hok
    cases hok
    intro c hc
    simp at hc
  | cons p rest ih =>
    rw [build_cells] at hok
    split at hok
    · rename_i hcond
      cases hrec : build_cells g bsx bsy guess_nb t1 t2 neutral death sh
          rest (n + 1) with
      | error e =>
        rw [hrec] at hok
        exact absurd hok (by simp [Bind.bind, Except.bind])
      | ok cs =>
        rw [hrec, except_bind_ok] at hok
        cases hok
        intro c hc
        rcases List.mem_cons.1 hc with h | h
        · refine ⟨p, List.mem_cons_self p rest, n, ?_, h⟩
          rw [sub_positions_length, card_colors_of_length] at hcond
          omega
        · obtain ⟨q, hq, m, hlt, hcq⟩ := ih (n + 1) cs hrec c h
          exact ⟨q, List.mem_cons_of_mem p hq, m, hlt, hcq⟩
    · exact absurd hok (by simp)

/-- Per-cell facts of any successful board-card run: each produced cell
is owned by one of the two team colors, the capacity condition held, its
positions are its sub-grid, and its tokens are the shuffle of the
`card_colors` list padded with exactly `N - (2*guess_nb + 2)` neutrals. -/
theorem display_board_cells_ok_mem (pageSize cardSize : Nat × Nat)
    (bsx bsy guess_nb : Nat) (t1 t2 neutral death : Color)
    (sh : Nat → List Color → List Color) (g : CardGrid)
    (cells : List BoardCell)
    (hg : CardGrid.init pageSize cardSize (10, 10) = .ok g)
    (hcells : display_board_cells pageSize cardSize (bsx, bsy) guess_nb t1 t2
      neutral death sh = .ok cells) :
    ∀ c ∈ cells, (c.line_color = t1 ∨ c.line_color = t2) ∧
      2 * guess_nb + 2 < bsx * bsy ∧
      c.positions = sub_positions g bsx bsy c.origin ∧
      ∃ m, c.tokens = sh m (card_colors_of guess_nb t1 t2 death c.line_color ++
        List.replicate (bsx * bsy - (2 * guess_nb + 2)) neutral) := by
  rw [display_board_cells_eq pageSize cardSize (bsx, bsy) guess_nb t1 t2
    neutral death sh g hg] at hcells
  intro c hc
  obtain ⟨p, hp, m, hlt, hcq⟩ :=
    build_cells_ok_mem g bsx bsy guess_nb t1 t2 neutral death sh _ 0 cells
      hcells c hc
  have hpcol : p.2 = t1 ∨ p.2 = t2 := by
    obtain ⟨q, hq, hqp⟩ := List.mem_map.1 hp
    have hmemc : q.2 ∈ (List.replicate (g.cell_nb / 2) [t1, t2]).flatten :=
      g.snd_mem_of_mem_enumMapFrom 0 _ q hq
    have hq2 : p.2 = q.2 := by
      rw [← hqp]
      rfl
    rw [hq2]
    exact mem_join_replicate_pair _ t1 t2 q.2 hmemc
  subst hcq
  refine ⟨hpcol, hlt, rfl, m, ?_⟩
  rw [sub_positions_length, card_colors_of_length]

/-- C1 counterexample: board `(5, 5)` (sub-grid capacity 25) and
`guess_nb = 8` on a 3×1 page grid with the default colors and the
identity shuffle (a legitimate outcome of `random.shuffle`): the realized
per-cell tallies are `(team_1, team_2, death, neutral) = (9, 8, 1, 7)`
and `(8, 9, 1, 7)` — not the claimed `(8, 8, 1, 8)`, and the two team
counts are never equal, because the source appends the cell's owning team
color as an extra token (`[color, params.death_color]`). -/
theorem board_card_tally_counterexample :
    (display_board_cells (100, 200) (60, 60) (5, 5) 8 (.named "tomato")
        (.named "corn_flower_blue") (.named "pale_golden_rod") (.named "black")
        (fun _ l => l)).map
      (fun cells => cells.map (fun c =>
        (c.tokens.count (.named "tomato"),
         c.tokens.count (.named "corn_flower_blue"),
         c.tokens.count (.named "black"),
         c.tokens.count (.named "pale_golden_rod")))) =
      .ok [(9, 8, 1, 7), (8, 9, 1, 7)] := by rfl

/-- C1, amended: on every board card the owning team's color appears
`guess_nb + 1` times, the other team's `guess_nb` times, the death
(hazard) color once and the neutral color `N - (2*guess_nb + 2)` times,
where `N` is the sub-grid capacity; every sub-grid position is covered
(`N` tokens in total) and the two team counts differ by exactly one. -/
theorem board_card_tally (pageSize cardSize : Nat × Nat)
    (bsx bsy guess_nb : Nat) (t1 t2 neutral death : Color)
    (sh : Nat → List Color → List Color) (g : CardGrid)
    (hg : CardGrid.init pageSize cardSize (10, 10) = .ok g)
    (hsh : ∀ n l, List.Perm (sh n l) l)
    (h12 : t1 ≠ t2) (hd1 : death ≠ t1) (hd2 : death ≠ t2)
    (hn1 : neutral ≠ t1) (hn2 : neutral ≠ t2) (hnd : neutral ≠ death) :
    ∀ cells, display_board_cells pageSize cardSize (bsx, bsy) guess_nb t1 t2
        neutral death sh = .ok cells →
      ∀ c ∈ cells,
        (c.line_color = t1 ∨ c.line_color = t2) ∧
        c.tokens.count c.line_color = guess_nb + 1 ∧
        c.tokens.count (if c.line_color = t1 then t2 else t1) = guess_nb ∧
        c.tokens.count death = 1 ∧
        c.tokens.count neutral = bsx * bsy - (2 * guess_nb + 2) ∧
        c.tokens.length = bsx * bsy := by
  intro cells hcells c hc
  obtain ⟨hcol, hlt, -, m, htok⟩ :=
    display_board_cells_ok_mem pageSize cardSize bsx bsy guess_nb t1 t2
      neutral death sh g cells hg hcells c hc
  have hcount : ∀ a : Color, c.tokens.count a =
      (card_colors_of guess_nb t1 t2 death c.line_color ++
        List.replicate (bsx * bsy - (2 * guess_nb + 2)) neutral).count a := by
    intro a
    rw [htok]
    exact (hsh m _).count_eq a
  have hlength : c.tokens.length = bsx * bsy := by
    rw [htok, (hsh m _).length_eq, List.length_append, card_colors_of_length,
      List.length_replicate]
    omega
  rcases hcol with h | h
  · rw [h]
    refine ⟨Or.inl rfl, ?_, ?_, ?_, ?_, hlength⟩
    · rw [hcount, h]
      simp [card_colors_of, List.count_append, List.count_replicate,
        List.count_cons, h12, Ne.symm h12, hd1, Ne.symm hd1, hd2, Ne.symm hd2,
        hn1, Ne.symm hn1, hn2, Ne.symm hn2, hnd, Ne.symm hnd]
    · rw [if_pos rfl, hcount, h]
      simp [card_colors_of, List.count_append, List.count_replicate,
        List.count_cons, h12, Ne.symm h12, hd1, Ne.symm hd1, hd2, Ne.symm hd2,
        hn1, Ne.symm hn1, hn2, Ne.symm hn2, hnd, Ne.symm hnd]
    · rw [hcount, h]
      simp [card_colors_of, List.count_append, List.count_replicate,
        List.count_cons, h12, Ne.symm h12, hd1, Ne.symm hd1, hd2, Ne.symm hd2,
        hn1, Ne.symm hn1, hn2, Ne.symm hn2, hnd, Ne.symm hnd]
    · rw [hcount, h]
      simp [card_colors_of, List.count_append, List.count_replicate,
        List.count_cons, h12, Ne.symm h12, hd1, Ne.symm hd1, hd2, Ne.symm hd2,
        hn1, Ne.symm hn1, hn2, Ne.symm hn2, hnd, Ne.symm hnd]
  · rw [h]
    refine ⟨Or.inr rfl, ?_, ?_, ?_, ?_, hlength⟩
    · rw [hcount, h]
      simp [card_colors_of, List.count_append, List.count_replicate,
        List.count_cons, h12, Ne.symm h12, hd1, Ne.symm hd1, hd2, Ne.symm hd2,
        hn1, Ne.symm hn1, hn2, Ne.symm hn2, hnd, Ne.symm hnd]
    · rw [if_neg (Ne.symm h12), hcount, h]
      simp [card_colors_of, List.count_append, List.count_replicate,
        List.count_cons, h12, Ne.symm h12, hd1, Ne.symm hd1, hd2, Ne.symm hd2,
        hn1, Ne.symm hn1, hn2, Ne.symm hn2, hnd, Ne.symm hnd]
    · rw [hcount, h]
      simp [card_colors_of, List.count_append, List.count_replicate,
        List.count_cons, h12, Ne.symm h12, hd1, Ne.symm hd1, hd2, Ne.symm hd2,
        hn1, Ne.symm hn1, hn2, Ne.symm hn2, hnd, Ne.symm hnd]
    · rw [hcount, h]
      simp [card_colors_of, List.count_append, List.count_replicate,
        List.count_cons, h12, Ne.symm h12, hd1, Ne.symm hd1, hd2, Ne.symm hd2,
        hn1, Ne.symm hn1, hn2, Ne.symm hn2, hnd, Ne.symm hnd]

/-- Cells computed by the board-card pipeline at the concrete input used
by the board-card witnesses below: page `(100, 200)`, card `(60, 60)`
(a 3×1 page grid), board `(5, 5)`, `guess_nb = 8`, the default
`GAME_PARAMS` colors and the identity shuffle. -/
def witness_cells : List BoardCell :=
  match display_board_cells (100, 200) (60, 60) (5, 5) 8 (.named "tomato")
      (.named "corn_flower_blue") (.named "pale_golden_rod") (.named "black")
      (fun _ l => l) with
  | .ok cells => cells
  | .error _ => []

/-- The first of the two cells of `witness_cells`. -/
def witness_cell0 : BoardCell :=
  witness_cells.getD 0 ⟨(0, 0), .named "tomato", [], []⟩

/-- Concrete instantiation of `board_card_tally` at the first cell of the
3×1 page grid of page `(100, 200)` and card `(60, 60)` with the default
game parameters and the identity shuffle. -/
theorem board_card_tally_witness :
    (witness_cell0.line_color = .named "tomato" ∨
      witness_cell0.line_color = .named "corn_flower_blue") ∧
    witness_cell0.tokens.count witness_cell0.line_color = 8 + 1 ∧
    witness_cell0.tokens.count (if witness_cell0.line_color = .named "tomato"
      then .named "corn_flower_blue" else .named "tomato") = 8 ∧
    witness_cell0.tokens.count (.named "black") = 1 ∧
    witness_cell0.tokens.count (.named "pale_golden_rod") =
      5 * 5 - (2 * 8 + 2) ∧
    witness_cell0.tokens.length = 5 * 5 :=
  board_card_tally (100, 200) (60, 60) 5 5 8 (.named "tomato")
    (.named "corn_flower_blue") (.named "pale_golden_rod") (.named "black")
    (fun _ l => l) ⟨3, 1, (10, 90), (10, 190), (10, 10), 60, 60, 3⟩ rfl
    (fun _ l => List.Perm.refl l) (by decide) (by decide) (by decide)
    (by decide) (by decide) (by decide)
    witness_cells rfl witness_cell0 (by decide)

/-- C7: on every board card each sub-grid position receives exactly one
token (the token list and the position list have the same length, so the
zip pairs them one-to-one) and the shuffled token list is a permutation
of the token list built from the tally — never a resample, so the
realized per-color counts equal the tally exactly. -/
theorem board_tokens_permutation (pageSize cardSize : Nat × Nat)
    (bsx bsy guess_nb : Nat) (t1 t2 neutral death : Color)
    (sh : Nat → List Color → List Color) (g : CardGrid)
    (hg : CardGrid.init pageSize cardSize (10, 10) = .ok g)
    (hsh : ∀ n l, List.Perm (sh n l) l) :
    ∀ cells, display_board_cells pageSize cardSize (bsx, bsy) guess_nb t1 t2
        neutral death sh = .ok cells →
      ∀ c ∈ cells, c.tokens.length = c.positions.length ∧
        c.tokens.Perm
          (card_colors_of guess_nb t1 t2 death c.line_color ++
            List.replicate (c.positions.length -
              (card_colors_of guess_nb t1 t2 death c.line_color).length)
              neutral) := by
  intro cells hcells c hc
  obtain ⟨-, hlt, hpos, m, htok⟩ :=
    display_board_cells_ok_mem pageSize cardSize bsx bsy guess_nb t1 t2
      neutral death sh g cells hg hcells c hc
  have hplen : c.positions.length = bsx * bsy := by
    rw [hpos, sub_positions_length]
  have hperm : c.tokens.Perm
      (card_colors_of guess_nb t1 t2 death c.line_color ++
        List.replicate (bsx * bsy - (2 * guess_nb + 2)) neutral) := by
    rw [htok]
    exact hsh m _
  constructor
  · rw [hperm.length_eq, List.length_append, card_colors_of_length,
      List.length_replicate, hplen]
    omega
  · rw [hplen, card_colors_of_length]
    exact hperm

/-- Concrete instantiation of `board_tokens_permutation` at the first
cell of the 3×1 page grid with the default game parameters and the
identity shuffle. -/
theorem board_tokens_permutation_witness :
    witness_cell0.tokens.length = witness_cell0.positions.length ∧
    witness_cell0.tokens.Perm
      (card_colors_of 8 (.named "tomato") (.named "corn_flower_blue")
          (.named "black") witness_cell0.line_color ++
        List.replicate (witness_cell0.positions.length -
          (card_colors_of 8 (.named "tomato") (.named "corn_flower_blue")
            (.named "black") witness_cell0.line_color).length)
          (.named "pale_golden_rod")) :=
  board_tokens_permutation (100, 200) (60, 60) 5 5 8 (.named "tomato")
    (.named "corn_flower_blue") (.named "pale_golden_rod") (.named "black")
    (fun _ l => l) ⟨3, 1, (10, 90), (10, 190), (10, 10), 60, 60, 3⟩ rfl
    (fun _ l => List.Perm.refl l)
    witness_cells rfl witness_cell0 (by decide)

/-- C8 counterexample: board `(4, 4)` (sub-grid capacity 16) with
`guess_nb = 7`.  Taking the claim's required tokens `2*7 + 1 = 15`, the
remainder `16 - 15 = 1` is non-negative, so the claim says construction
succeeds; the code instead fails its bare capacity assert, because the
actual required tokens are `2*7 + 2 = 16` (the extra owning-team token)
and the strict `<` demands at least one leftover neutral. -/
theorem board_neutral_remainder_counterexample :
    display_board_cells (100, 200) (60, 60) (4, 4) 7 (.named "tomato")
        (.named "corn_flower_blue") (.named "pale_golden_rod")
        (.named "black") (fun _ l => l) =
      .error (.assertionError "") := by rfl

/-- C8, amended: the neutral token count of a board card is auto-computed
as `N - (2*guess_nb + 2)` — the sub-grid capacity minus the `2*guess_nb`
team tokens, the extra owning-team token and the hazard token — and the
per-cell loop fails (bare assert) exactly when this remainder is below 1:
a remainder of zero also fails, since the strict `<` of the assert
requires at least one neutral token. -/
theorem board_neutral_remainder (pageSize cardSize : Nat × Nat)
    (bsx bsy guess_nb : Nat) (t1 t2 neutral death : Color)
    (sh : Nat → List Color → List Color) (g : CardGrid)
    (hg : CardGrid.init pageSize cardSize (10, 10) = .ok g)
    (h2 : 2 ≤ g.cell_nb)
    (hsh : ∀ n l, List.Perm (sh n l) l)
    (hn1 : neutral ≠ t1) (hn2 : neutral ≠ t2) (hnd : neutral ≠ death) :
    ((display_board_cells pageSize cardSize (bsx, bsy) guess_nb t1 t2 neutral
        death sh).isOk = true ↔ 2 * guess_nb + 2 < bsx * bsy) ∧
    (∀ cells, display_board_cells pageSize cardSize (bsx, bsy) guess_nb t1 t2
        neutral death sh = .ok cells →
      ∀ c ∈ cells, (c.line_color = t1 ∨ c.line_color = t2) ∧
        c.tokens.count neutral = bsx * bsy - (2 * guess_nb + 2)) := by
  constructor
  · rw [display_board_cells_eq pageSize cardSize (bsx, bsy) guess_nb t1 t2
      neutral death sh g hg]
    have hlen : ((g.enumMapFrom 0
        ((List.replicate (g.cell_nb / 2) [t1, t2]).flatten)).map
          g.xy_of).length = 2 * (g.cell_nb / 2) := by
      rw [List.length_map, g.enumMapFrom_length, join_replicate_pair_length]
    obtain ⟨q, rest, hqrest⟩ : ∃ q rest,
        ((g.enumMapFrom 0
          ((List.replicate (g.cell_nb / 2) [t1, t2]).flatten)).map
            g.xy_of) = q :: rest := by
      apply List.exists_cons_of_ne_nil
      intro hnil
      rw [hnil] at hlen
      simp at hlen
      omega
    rw [hqrest]
    constructor
    · intro hok
      cases hbc : build_cells g bsx bsy guess_nb t1 t2 neutral death sh
          (q :: rest) 0 with
      | error e =>
        rw [hbc] at hok
        simp [Except.isOk, Except.toBool] at hok
      | ok cs =>
        exact build_cells_ok_lt g bsx bsy guess_nb t1 t2 neutral death sh
          q rest 0 cs hbc
    · intro hlt
      rw [build_cells_ok g bsx bsy guess_nb t1 t2 neutral death sh
        (q :: rest) 0 hlt]
      rfl
  · intro cells hcells c hc
    obtain ⟨hcol, hlt, -, m, htok⟩ :=
      display_board_cells_ok_mem pageSize cardSize bsx bsy guess_nb t1 t2
        neutral death sh g cells hg hcells c hc
    refine ⟨hcol, ?_⟩
    rw [htok, (hsh m _).count_eq neutral]
    have hnc : neutral ≠ c.line_color := by
      rcases hcol with h | h <;> rw [h] <;> assumption
    simp [card_colors_of, List.count_append, List.count_replicate,
      List.count_cons, hn1, Ne.symm hn1, hn2, Ne.symm hn2, hnd, Ne.symm hnd,
      hnc, Ne.symm hnc]

/-- Concrete instantiation of `board_neutral_remainder`: with the default
board `(5, 5)` and `guess_nb = 8` the capacity condition `18 < 25` holds,
the run succeeds and every cell carries `25 - 18 = 7` neutral tokens. -/
theorem board_neutral_remainder_witness :
    ((display_board_cells (100, 200) (60, 60) (5, 5) 8 (.named "tomato")
        (.named "corn_flower_blue") (.named "pale_golden_rod")
        (.named "black") (fun _ l => l)).isOk = true ↔
      2 * 8 + 2 < 5 * 5) ∧
    (∀ cells, display_board_cells (100, 200) (60, 60) (5, 5) 8
        (.named "tomato") (.named "corn_flower_blue")
        (.named "pale_golden_rod") (.named "black") (fun _ l => l) =
        .ok cells →
      ∀ c ∈ cells,
        (c.line_color = .named "tomato" ∨
          c.line_color = .named "corn_flower_blue") ∧
        c.tokens.count (.named "pale_golden_rod") = 5 * 5 - (2 * 8 + 2)) :=
  board_neutral_remainder (100, 200) (60, 60) 5 5 8 (.named "tomato")
    (.named "corn_flower_blue") (.named "pale_golden_rod") (.named "black")
    (fun _ l => l) ⟨3, 1, (10, 90), (10, 190), (10, 10), 60, 60, 3⟩ rfl
    (by decide) (fun _ l => List.Perm.refl l) (by decide) (by decide)
    (by decide)

/-- C10: when the top-level capacity is odd the alternating owner color
list `[t1, t2] * (cell_nb // 2)` has length `2 * (cell_nb / 2) =
cell_nb - 1`, so a successful board-card run populates exactly the first
`cell_nb - 1` top-level cells in row-major order and the last cell
receives no sub-grid and no tokens. -/
theorem board_cards_odd_capacity (pageSize cardSize : Nat × Nat)
    (bsx bsy guess_nb : Nat) (t1 t2 neutral death : Color)
    (sh : Nat → List Color → List Color) (g : CardGrid)
    (hg : CardGrid.init pageSize cardSize (10, 10) = .ok g)
    (hodd : g.cell_nb % 2 = 1) :
    ∀ cells, display_board_cells pageSize cardSize (bsx, bsy) guess_nb t1 t2
        neutral death sh = .ok cells →
      cells.length = g.cell_nb - 1 ∧
      cells.map BoardCell.origin =
        (List.range' 0 (g.cell_nb - 1) 1).map
          (fun m => (g.start.1 + (m % g.j_max) * g.dx,
                     g.start.2 + (m / g.j_max) * g.dy)) := by
  intro cells hcells
  rw [display_board_cells_eq pageSize cardSize (bsx, bsy) guess_nb t1 t2
    neutral death sh g hg] at hcells
  have hceq := build_cells_ok_eq g bsx bsy guess_nb t1 t2 neutral death sh
    _ 0 cells hcells
  have hclen : ((List.replicate (g.cell_nb / 2) [t1, t2]).flatten).length =
      g.cell_nb - 1 := by
    rw [join_replicate_pair_length]
    omega
  constructor
  · rw [hceq, cells_of_length, List.length_map, g.enumMapFrom_length, hclen]
  · rw [hceq, cells_of_map_origin, List.map_map]
    have hfst : (Prod.fst ∘ g.xy_of (α := Color)) =
        ((fun q : Nat × Nat => (g.start.1 + q.2 * g.dx,
          g.start.2 + q.1 * g.dy)) ∘ Prod.fst) := by
      funext p
      rfl
    rw [hfst, ← List.map_map, g.enumMapFrom_map_fst, List.map_map, hclen]
    rfl

/-- Concrete instantiation of `board_cards_odd_capacity`: the page grid
of page `(100, 200)` and card `(60, 60)` has 3 cells (odd); only the
first two receive a board card, at pixel origins `(10, 10)` and
`(10, 70)`. -/
theorem board_cards_odd_capacity_witness :
    witness_cells.length = 3 - 1 ∧
    witness_cells.map BoardCell.origin =
      (List.range' 0 (3 - 1) 1).map
        (fun m => (10 + (m % 1) * 60, 10 + (m / 1) * 60)) :=
  board_cards_odd_capacity (100, 200) (60, 60) 5 5 8 (.named "tomato")
    (.named "corn_flower_blue") (.named "pale_golden_rod") (.named "black")
    (fun _ l => l) ⟨3, 1, (10, 90), (10, 190), (10, 10), 60, 60, 3⟩ rfl
    (by decide) witness_cells rfl

/-- The page slicing of `create_word_cards`: the successive slices
`words[i:i+grid.cell_nb]` for `i in range(0, len(words), grid.cell_nb)`
(for a positive step, `range(0, n, step)` has `ceil(n / step)` =
`(n + step - 1) / step` elements). -/
def word_slices (cap : Nat) (words : List String) : List (List String) :=
  (List.range' 0 ((words.length + cap - 1) / cap) cap).map
    (fun i => (words.drop i).take cap)

/-- Placement of a whole sequence on the unbounded grid with the same
column count but no row bound: item `k` sits at row `k / j_max`, column
`k % j_max`, nothing is ever truncated. -/
def unbounded_place (g : CardGrid) (items : List String) :
    List ((Nat × Nat) × String) :=
  g.enumMapFrom 0 items

/-- Vertical stacking of successive page placements: the rows of page `s`
are offset `s * i_max` rows down, so that slice `s` begins exactly where
slice `s - 1` ended. -/
def stack_pages (g : CardGrid) : Nat → List (List ((Nat × Nat) × String)) →
    List ((Nat × Nat) × String)
  | _, [] => []
  | s, page :: rest =>
    page.map (fun q => ((s * g.i_max + q.1.1, q.1.2), q.2)) ++
      stack_pages g (s + 1) rest

theorem map_offset_enumMapFrom (g : CardGrid) (hj : 0 < g.j_max) (s : Nat)
    (l : List String) (k : Nat) :
    (g.enumMapFrom k l).map
        (fun q : (Nat × Nat) × String => ((s * g.i_max + q.1.1, q.1.2), q.2)) =
      g.enumMapFrom (s * (g.i_max * g.j_max) + k) l := by
  induction l generalizing k with
  | nil => rfl
  | cons a rest ih =>
    simp only [CardGrid.enumMapFrom, List.map_cons]
    rw [ih (k + 1)]
    have h1 : (s * (g.i_max * g.j_max) + k) / g.j_max =
        s * g.i_max + k / g.j_max := by
      rw [← Nat.mul_assoc, Nat.add_comm, Nat.mul_comm (s * g.i_max) g.j_max,
        Nat.add_mul_div_left _ _ hj, Nat.add_comm]
    have h2 : (s * (g.i_max * g.j_max) + k) % g.j_max = k % g.j_max := by
      rw [← Nat.mul_assoc, Nat.add_comm, Nat.add_mul_mod_self_right]
    rw [h1, h2,
      show s * (g.i_max * g.j_max) + (k + 1) =
        s * (g.i_max * g.j_max) + k + 1 from by omega]

theorem word_slices_of_len (cap k : Nat) (words : List String)
    (hcap : 0 < cap) (hk0 : 0 < k) (hk : k < cap)
    (hlen : words.length = 3 * cap + k) :
    word_slices cap words =
      [words.take cap, (words.drop cap).take cap,
       (words.drop (cap + cap)).take cap,
       (words.drop (cap + cap + cap)).take cap] := by
  rw [word_slices, hlen]
  have hnum : (3 * cap + k + cap - 1) / cap = 4 := by
    rw [show 3 * cap + k + cap - 1 = (k - 1) + cap * 4 from by omega,
      Nat.add_mul_div_left _ _ hcap, Nat.div_eq_of_lt (by omega)]
  rw [hnum]
  simp [List.range']

/-- C4: splitting a sequence of `3*capacity + k` items (`0 < k <
capacity`) into successive capacity-sized slices and placing each slice
on the same grid is lossless and order-preserving: every slice placement
succeeds, concatenating the page placements in slice order — each page
beginning exactly where the previous one ended, `i_max` rows further
down — reproduces exactly the `((row, col), item)` pairs of the single
placement of the whole sequence on the unbounded grid, and the
concatenated placed items are exactly the input items with no loss,
duplication or reordering. -/
theorem pagination_lossless (pageSize cardSize xyMargin : Nat × Nat)
    (g : CardGrid) (items : List String) (k : Nat)
    (hg : CardGrid.init pageSize cardSize xyMargin = .ok g)
    (hcap : 0 < g.cell_nb) (hk0 : 0 < k) (hkc : k < g.cell_nb)
    (hlen : items.length = 3 * g.cell_nb + k) :
    ∃ pages, (word_slices g.cell_nb items).mapM g.ij_enum = .ok pages ∧
      stack_pages g 0 pages = unbounded_place g items ∧
      pages.flatten.map Prod.snd = items := by
  obtain ⟨-, -, -, -, -, hc, -, -⟩ := CardGrid.init_ok_spec _ _ _ g hg
  obtain ⟨hi, hj⟩ := g.pos_of_cell_nb_pos hc hcap
  rw [word_slices_of_len g.cell_nb k items hcap hk0 hkc hlen]
  have hlen0 : (items.take g.cell_nb).length = g.cell_nb := by
    rw [List.length_take]
    omega
  have hlen1 : ((items.drop g.cell_nb).take g.cell_nb).length = g.cell_nb := by
    rw [List.length_take, List.length_drop]
    omega
  have hlen2 : ((items.drop (g.cell_nb + g.cell_nb)).take g.cell_nb).length =
      g.cell_nb := by
    rw [List.length_take, List.length_drop]
    omega
  have hlen3 : ((items.drop
      (g.cell_nb + g.cell_nb + g.cell_nb)).take g.cell_nb).length = k := by
    rw [List.length_take, List.length_drop]
    omega
  have hij : ∀ S : List String, S.length ≤ g.cell_nb →
      g.ij_enum S = .ok (g.enumMapFrom 0 S) := by
    intro S hS
    rw [CardGrid.ij_enum, if_neg (not_lt.2 hS), g.ij_from_eq_of_le hj hc S hS]
  have h0 := hij (items.take g.cell_nb) (by omega)
  have h1 := hij ((items.drop g.cell_nb).take g.cell_nb) (by omega)
  have h2 := hij ((items.drop (g.cell_nb + g.cell_nb)).take g.cell_nb)
    (by omega)
  have h3 := hij ((items.drop
    (g.cell_nb + g.cell_nb + g.cell_nb)).take g.cell_nb) (by omega)
  have hsplit : items =
      items.take g.cell_nb ++ ((items.drop g.cell_nb).take g.cell_nb ++
        ((items.drop (g.cell_nb + g.cell_nb)).take g.cell_nb ++
          (items.drop
            (g.cell_nb + g.cell_nb + g.cell_nb)).take g.cell_nb)) := by
    rw [List.take_of_length_le
      (by rw [List.length_drop]; omega :
        (items.drop (g.cell_nb + g.cell_nb + g.cell_nb)).length ≤ g.cell_nb)]
    conv_lhs => rw [← List.take_append_drop g.cell_nb items]
    congr 1
    conv_lhs =>
      rw [← List.take_append_drop g.cell_nb (items.drop g.cell_nb)]
    rw [List.drop_drop]
    congr 1
    conv_lhs =>
      rw [← List.take_append_drop g.cell_nb
        (items.drop (g.cell_nb + g.cell_nb))]
    rw [List.drop_drop]
  refine ⟨[g.enumMapFrom 0 (items.take g.cell_nb),
    g.enumMapFrom 0 ((items.drop g.cell_nb).take g.cell_nb),
    g.enumMapFrom 0 ((items.drop (g.cell_nb + g.cell_nb)).take g.cell_nb),
    g.enumMapFrom 0 ((items.drop
      (g.cell_nb + g.cell_nb + g.cell_nb)).take g.cell_nb)], ?_, ?_, ?_⟩
  · simp only [List.mapM_cons, List.mapM_nil, h0, h1, h2, h3, except_bind_ok]
    rfl
  · rw [unbounded_place]
    simp only [stack_pages]
    rw [map_offset_enumMapFrom g hj 0 _ 0, map_offset_enumMapFrom g hj 1 _ 0,
      map_offset_enumMapFrom g hj 2 _ 0, map_offset_enumMapFrom g hj 3 _ 0,
      ← hc, List.append_nil,
      show 0 * g.cell_nb + 0 = 0 from by omega,
      show 1 * g.cell_nb + 0 = 0 + g.cell_nb from by omega,
      show 2 * g.cell_nb + 0 = 0 + g.cell_nb + g.cell_nb from by omega,
      show 3 * g.cell_nb + 0 = 0 + g.cell_nb + g.cell_nb + g.cell_nb from
        by omega]
    conv_rhs => rw [hsplit]
    rw [g.enumMapFrom_append, g.enumMapFrom_append, g.enumMapFrom_append,
      hlen0, hlen1, hlen2]
  · simp only [List.flatten_cons, List.flatten_nil, List.append_nil,
      List.map_append, CardGrid.enumMapFrom_map_snd]
    exact hsplit.symm

/-- Concrete instantiation of `pagination_lossless`: 13 items on the 2×2
grid of page `(100, 100)`, card `(30, 30)` (capacity 4, `k = 1`). -/
theorem pagination_lossless_witness :
    ∃ pages, (word_slices 4
        ["a", "b", "c", "d", "e", "f", "g", "h", "i", "j", "k", "l", "m"]).mapM
        (⟨2, 2, (10, 90), (10, 90), (10, 10), 30, 30, 4⟩ :
          CardGrid).ij_enum = .ok pages ∧
      stack_pages ⟨2, 2, (10, 90), (10, 90), (10, 10), 30, 30, 4⟩ 0 pages =
        unbounded_place ⟨2, 2, (10, 90), (10, 90), (10, 10), 30, 30, 4⟩
          ["a", "b", "c", "d", "e", "f", "g", "h", "i", "j", "k", "l", "m"] ∧
      pages.flatten.map Prod.snd =
        ["a", "b", "c", "d", "e", "f", "g", "h", "i", "j", "k", "l", "m"] :=
  pagination_lossless (100, 100) (30, 30) (10, 10)
    ⟨2, 2, (10, 90), (10, 90), (10, 10), 30, 30, 4⟩
    ["a", "b", "c", "d", "e", "f", "g", "h", "i", "j", "k", "l", "m"] 1
    rfl (by decide) (by decide) (by decide) rfl

end Codenames
